import Mathlib

/-!
Verification of the async-runtime adapter of openraft
(`src/openraft/src/type_config/async_runtime/impls/tokio_runtime.rs`).

The adapter is a thin delegation layer over the backing runtime's channel and
timer primitives.  The adapter's own code (the error re-wrapping closures such
as `SendError(e.0)` and `RecvError(())`) is embedded directly from the source.
The backing primitives themselves (the unbounded MPSC queue, the oneshot slot,
the watch cell and the timer) are not part of the repository's sources, so they
are modelled operationally from the specification and each such definition is
marked `Modelled from the spec:`.
-/

namespace OpenraftAsync

/-! ## Unbounded MPSC channel -/

/-- Modelled from the spec: the state of the unbounded MPSC channel backing
`TokioMpscUnbounded` (the queue implementation behind `mpsc::unbounded_channel`
is not under `src/`).  The spec describes an unbounded FIFO queue shared by a
strong-sender count and a single receiver. -/
structure MpscChan (T : Type) where
  queue : List T
  strong : Nat
  receiverAlive : Bool
deriving Repr, DecidableEq

/-- Modelled from the spec: the backing runtime's mpsc send error, which
carries the undelivered message (the adapter reads it as `e.0`). -/
structure MpscNativeSendError (T : Type) where
  val : T
deriving Repr, DecidableEq

/-- The repository's `mpsc_unbounded::SendError<T>` wrapper (declared in
repository code outside `src/`; its payload shape is fixed by the adapter's
mapping `SendError(e.0)` at line 115 of the adapter). -/
structure MpscSendError (T : Type) where
  val : T
deriving Repr, DecidableEq

/-- Modelled from the spec: `channel()` creates a fresh unbounded channel with
one strong sender, a live receiver and an empty queue (adapter lines 105-107
delegate to `mpsc::unbounded_channel`). -/
def MpscChan.channel (T : Type) : MpscChan T :=
  { queue := [], strong := 1, receiverAlive := true }

/-- Modelled from the spec: the backing send.  It never suspends and never
fails for capacity (unbounded queue); it fails exactly when the receiver has
been dropped, and on failure the error carries the undelivered message. -/
def MpscChan.nativeSend (c : MpscChan T) (msg : T) :
    MpscChan T × Except (MpscNativeSendError T) Unit :=
  if c.receiverAlive then
    ({ c with queue := c.queue ++ [msg] }, Except.ok ())
  else
    (c, Except.error ⟨msg⟩)

/-- The adapter's `send` (lines 113-116): delegates to the backing send and
re-wraps the error as `mpsc_unbounded::SendError(e.0)`, preserving the
undelivered message. -/
def MpscChan.send (c : MpscChan T) (msg : T) :
    MpscChan T × Except (MpscSendError T) Unit :=
  let r := c.nativeSend msg
  (r.1, r.2.mapError (fun e => ⟨e.val⟩))

/-- Outcome of one `recv` poll: a message, the closed end-of-stream signal, or
still pending. -/
inductive RecvOutcome (T : Type) where
  | msg (v : T)
  | closed
  | pending
deriving Repr, DecidableEq

/-- Modelled from the spec: the backing `recv` (adapter lines 127-130 delegate
to it unchanged).  It yields the queue head if one is queued; on an empty queue
it resolves closed when no strong sender remains, and otherwise stays
pending. -/
def MpscChan.recv (c : MpscChan T) : MpscChan T × RecvOutcome T :=
  match c.queue with
  | v :: rest => ({ c with queue := rest }, RecvOutcome.msg v)
  | [] => if c.strong = 0 then (c, RecvOutcome.closed) else (c, RecvOutcome.pending)

/-- Modelled from the spec: dropping one strong sender decrements the strong
count. -/
def MpscChan.dropSender (c : MpscChan T) : MpscChan T :=
  { c with strong := c.strong - 1 }

/-- Modelled from the spec: dropping the receiver marks it gone. -/
def MpscChan.dropReceiver (c : MpscChan T) : MpscChan T :=
  { c with receiverAlive := false }

/-- Send a whole sequence of values through the channel, in order. -/
def MpscChan.sendAll (c : MpscChan T) : List T → MpscChan T
  | [] => c
  | v :: vs => ((c.send v).1).sendAll vs

/-- Receive `n` times, collecting the delivered messages in order; stops early
if a poll does not deliver a message. -/
def MpscChan.recvN (c : MpscChan T) : Nat → MpscChan T × List T
  | 0 => (c, [])
  | n + 1 =>
    match c.recv with
    | (c1, RecvOutcome.msg v) =>
      let r := c1.recvN n
      (r.1, v :: r.2)
    | (c1, _) => (c1, [])

theorem MpscChan.sendAll_spec (vs : List T) (q : List T) (s : Nat) :
    (MpscChan.mk q s true).sendAll vs = MpscChan.mk (q ++ vs) s true := by
  induction vs generalizing q with
  | nil => simp [MpscChan.sendAll]
  | cons v vs ih =>
    have h1 : (MpscChan.mk q s true).sendAll (v :: vs)
        = (MpscChan.mk (q ++ [v]) s true).sendAll vs := rfl
    rw [h1, ih]
    simp

theorem MpscChan.recvN_drain (vs : List T) (q : List T) (s : Nat) (r : Bool) :
    (MpscChan.mk (vs ++ q) s r).recvN vs.length = (MpscChan.mk q s r, vs) := by
  induction vs with
  | nil => rfl
  | cons v vs ih =>
    have h2 : (MpscChan.mk (v :: vs ++ q) s r).recvN (vs.length + 1)
        = (((MpscChan.mk (vs ++ q) s r).recvN vs.length).1,
           v :: ((MpscChan.mk (vs ++ q) s r).recvN vs.length).2) := rfl
    rw [List.length_cons, h2, ih]

theorem MpscChan.recv_nonempty_not_closed (c : MpscChan T) (h : c.queue ≠ []) :
    (c.recv).2 ≠ RecvOutcome.closed := by
  obtain ⟨q, s, r⟩ := c
  cases q with
  | nil => exact absurd rfl h
  | cons v rest => simp [MpscChan.recv]

/-- C1: for every sequence of values sent through a single MPSC sender,
receiving that many times returns exactly those values in send order; after
the only strong sender is dropped, the next `recv` after draining resolves
closed; and `recv` never resolves closed while a queued value remains
undrained. -/
theorem mpsc_single_sender_fifo_then_drain_then_closed (T : Type) (vs : List T)
    (d : MpscChan T) (hd : d.queue ≠ []) :
    ((((MpscChan.channel T).sendAll vs).dropSender).recvN vs.length).2 = vs ∧
    (((((MpscChan.channel T).sendAll vs).dropSender).recvN vs.length).1).recv.2
      = RecvOutcome.closed ∧
    (d.recv).2 ≠ RecvOutcome.closed := by
  have hsend : (MpscChan.channel T).sendAll vs = MpscChan.mk vs 1 true := by
    have := MpscChan.sendAll_spec vs [] 1
    simpa [MpscChan.channel] using this
  have hdrop : (((MpscChan.channel T).sendAll vs).dropSender)
      = MpscChan.mk vs 0 true := by
    rw [hsend]; rfl
  have hrecvN : (MpscChan.mk vs 0 true).recvN vs.length
      = (MpscChan.mk [] 0 true, vs) := by
    have := MpscChan.recvN_drain vs [] 0 true
    simpa using this
  refine ⟨?_, ?_, MpscChan.recv_nonempty_not_closed d hd⟩
  · rw [hdrop, hrecvN]
  · rw [hdrop, hrecvN]
    rfl

/-- Witness for C1 at a concrete channel and message list. -/
theorem mpsc_single_sender_fifo_then_drain_then_closed_witness :
    ((((MpscChan.channel Nat).sendAll [1, 2, 3]).dropSender).recvN 3).2
      = [1, 2, 3] ∧
    ((MpscChan.mk [7] 0 true).recv).2 ≠ RecvOutcome.closed := by
  have h := mpsc_single_sender_fifo_then_drain_then_closed Nat [1, 2, 3]
    (MpscChan.mk [7] 0 true) (by decide)
  exact ⟨h.1, h.2.2⟩

/-- C3: MPSC `send` is a total (non-suspending) function; it succeeds if and
only if the receiver is alive — in particular it never fails for capacity:
its outcome is unchanged under any replacement of the queue contents. -/
theorem mpsc_send_succeeds_iff_receiver_alive (T : Type) (c : MpscChan T)
    (msg : T) (q : List T) :
    ((c.send msg).2 = Except.ok () ↔ c.receiverAlive = true) ∧
    (({ c with queue := q } : MpscChan T).send msg).2 = (c.send msg).2 := by
  obtain ⟨cq, cs, cr⟩ := c
  cases cr <;> simp [MpscChan.send, MpscChan.nativeSend, Except.mapError]

/-! ## Oneshot channel -/

/-- Modelled from the spec: the state of the single-use oneshot channel backing
`TokioRuntime::oneshot` (the slot implementation behind
`tokio::sync::oneshot::channel` is not under `src/`).  The slot holds at most
one value; each half is tracked as alive until consumed or dropped. -/
structure OneshotState (T : Type) where
  slot : Option T
  senderAlive : Bool
  receiverAlive : Bool
deriving Repr, DecidableEq

/-- Modelled from the spec: `oneshot()` (adapter lines 79-83) creates a fresh
pair with an empty slot and both halves alive. -/
def OneshotState.channel (T : Type) : OneshotState T :=
  { slot := none, senderAlive := true, receiverAlive := true }

/-- The adapter's `OneshotSender::send` (lines 89-94): `send(self, t) ->
Result<(), T>` consumes the sender (modelled by clearing `senderAlive`); it
stores the value when the receiver is still there, and otherwise returns the
un-sent value to the caller. -/
def OneshotState.send (st : OneshotState T) (v : T) :
    OneshotState T × Except T Unit :=
  if st.receiverAlive then
    ({ st with slot := some v, senderAlive := false }, Except.ok ())
  else
    ({ st with senderAlive := false }, Except.error v)

/-- Outcome of awaiting the oneshot receiver. -/
inductive OneshotRecvOutcome (T : Type) where
  | val (v : T)
  | err
  | pending
deriving Repr, DecidableEq

/-- Modelled from the spec: awaiting the oneshot receiver resolves with the
sent value if one is stored, resolves with a receive-error once the sender is
gone without having sent, and otherwise stays pending. -/
def OneshotState.recvPoll (st : OneshotState T) : OneshotRecvOutcome T :=
  match st.slot with
  | some v => OneshotRecvOutcome.val v
  | none =>
    if st.senderAlive then OneshotRecvOutcome.pending else OneshotRecvOutcome.err

/-- Modelled from the spec: dropping the sender without sending. -/
def OneshotState.dropSender (st : OneshotState T) : OneshotState T :=
  { st with senderAlive := false }

/-- C6: on a fresh oneshot pair, sending `v` succeeds and awaiting the
receiver then yields exactly `v`; after the send the sender is consumed (so a
second send on it is impossible); and dropping the sender without sending
makes the receiver resolve with a receive-error rather than stay pending. -/
theorem oneshot_roundtrip_consumed_and_drop_errors (T : Type) (v : T) :
    (((OneshotState.channel T).send v).2 = Except.ok ()) ∧
    (((OneshotState.channel T).send v).1.recvPoll = OneshotRecvOutcome.val v) ∧
    (((OneshotState.channel T).send v).1.senderAlive = false) ∧
    ((OneshotState.channel T).dropSender.recvPoll = OneshotRecvOutcome.err) := by
  refine ⟨rfl, rfl, rfl, rfl⟩

/-! ## Watch channel -/

/-- Modelled from the spec: the backing runtime's watch send error, carrying
the rejected value (the adapter reads it as `e.0`). -/
structure WatchNativeSendError (T : Type) where
  val : T
deriving Repr, DecidableEq

/-- The repository's `watch::SendError<T>` wrapper (declared in repository
code outside `src/`; its payload shape is fixed by the adapter's mapping
`SendError(e.0)` at line 167 of the adapter). -/
structure WatchSendError (T : Type) where
  val : T
deriving Repr, DecidableEq

/-- The repository's `watch::RecvError` (declared in repository code outside
`src/`): a unit-carrying error, fixed by the adapter's construction
`RecvError(())` at line 184 of the adapter. -/
structure WatchRecvError where
  u : Unit
deriving Repr, DecidableEq

/-- Modelled from the spec: the state of the single-slot watch cell backing
`TokioWatch` (the cell behind `tokio_watch::channel` is not under `src/`).
The cell stores the latest value, a version counter bumped on every notifying
send, a receiver count and the sender-alive flag. -/
structure WatchChan (T : Type) where
  value : T
  version : Nat
  receivers : Nat
  senderAlive : Bool
deriving Repr, DecidableEq

/-- Modelled from the spec: a watch receiver handle tracks the last version it
has observed (its seen marker). -/
structure WatchReceiverSt where
  seen : Nat
deriving Repr, DecidableEq

/-- Modelled from the spec: `channel(init)` (adapter lines 158-160) creates the
cell holding `init` at version 0 with one receiver; the fresh receiver has
already seen version 0, i.e. the initial value counts as observed. -/
def WatchChan.channel (init : T) : WatchChan T × WatchReceiverSt :=
  ({ value := init, version := 0, receivers := 1, senderAlive := true }, ⟨0⟩)

/-- Modelled from the spec: the backing watch send replaces the slot and bumps
the version (marking the value unseen for every caught-up receiver); it fails
and returns the value when no receiver remains. -/
def WatchChan.nativeSend (w : WatchChan T) (v : T) :
    WatchChan T × Except (WatchNativeSendError T) Unit :=
  if w.receivers = 0 then
    (w, Except.error ⟨v⟩)
  else
    ({ w with value := v, version := w.version + 1 }, Except.ok ())

/-- The adapter's `WatchSender::send` (lines 166-168): delegates to the
backing send and re-wraps the error as `watch::SendError(e.0)`, preserving the
rejected value. -/
def WatchChan.send (w : WatchChan T) (v : T) :
    WatchChan T × Except (WatchSendError T) Unit :=
  let r := w.nativeSend v
  (r.1, r.2.mapError (fun e => ⟨e.val⟩))

/-- The adapter's `WatchSender::send_if_modified` (lines 170-173), delegating
to the backing primitive: the closure is applied to the slot value in place
(modelled as `T → T × Bool`), the version is bumped exactly when the closure
reports a modification, and the closure's answer is returned. -/
def WatchChan.sendIfModified (w : WatchChan T) (modify : T → T × Bool) :
    WatchChan T × Bool :=
  let r := modify w.value
  ({ w with value := r.1,
            version := if r.2 then w.version + 1 else w.version }, r.2)

/-- The adapter's `borrow_watched` (lines 175-177 and 187-189): a read-only
view of the current slot value, leaving every seen marker untouched. -/
def WatchChan.borrowWatched (w : WatchChan T) : T :=
  w.value

/-- Outcome of one poll of a watch receiver's `changed()`. -/
inductive ChangedOutcome where
  | resolved
  | errOut (e : WatchRecvError)
  | pending
deriving Repr, DecidableEq

/-- Modelled from the spec: polling `changed()` resolves (and marks the
current version seen) when the cell holds a version this receiver has not
seen; otherwise it fails once the sender is gone, and stays pending while the
sender lives.  The error payload is the adapter's `RecvError(())` from line
184. -/
def WatchChan.changedPoll (w : WatchChan T) (r : WatchReceiverSt) :
    ChangedOutcome × WatchReceiverSt :=
  if r.seen ≠ w.version then (ChangedOutcome.resolved, ⟨w.version⟩)
  else if w.senderAlive then (ChangedOutcome.pending, r)
  else (ChangedOutcome.errOut ⟨()⟩, r)

/-- Modelled from the spec: the distinguishable causes the backing runtime
could report when `changed()` fails (the adapter is oblivious to them). -/
inductive WatchNativeRecvCause where
  | senderDropped
  | channelFault
deriving Repr, DecidableEq

/-- The adapter's `WatchReceiver::changed` error path (lines 183-185):
`map_err(|_| watch::RecvError(()))` discards the underlying cause entirely. -/
def watchChangedAdapt (r : Except WatchNativeRecvCause Unit) :
    Except WatchRecvError Unit :=
  r.mapError (fun _ => ⟨()⟩)

/-- C2: every failed send returns the exact value the caller attempted to
send — the oneshot `send` returns it as the `Err` payload, and the MPSC and
watch adapters wrap it unchanged inside their `SendError`. -/
theorem failed_sends_return_the_value (T : Type)
    (ost : OneshotState T) (v1 : T) (h1 : ost.receiverAlive = false)
    (c : MpscChan T) (v2 : T) (h2 : c.receiverAlive = false)
    (w : WatchChan T) (v3 : T) (h3 : w.receivers = 0) :
    (ost.send v1).2 = Except.error v1 ∧
    (c.send v2).2 = Except.error ⟨v2⟩ ∧
    (w.send v3).2 = Except.error ⟨v3⟩ := by
  refine ⟨?_, ?_, ?_⟩
  · simp [OneshotState.send, h1]
  · simp [MpscChan.send, MpscChan.nativeSend, h2, Except.mapError]
  · simp [WatchChan.send, WatchChan.nativeSend, h3, Except.mapError]

/-- Witness for C2 at concrete states whose peer half is gone. -/
theorem failed_sends_return_the_value_witness :
    ((OneshotState.mk none true false : OneshotState Nat).send 5).2
      = Except.error 5 ∧
    ((MpscChan.mk [] 1 false : MpscChan Nat).send 6).2 = Except.error ⟨6⟩ ∧
    ((WatchChan.mk 0 0 0 true : WatchChan Nat).send 7).2 = Except.error ⟨7⟩ :=
  failed_sends_return_the_value Nat (OneshotState.mk none true false) 5 rfl
    (MpscChan.mk [] 1 false) 6 rfl (WatchChan.mk 0 0 0 true) 7 rfl

/-- C8: `send_if_modified` applies the closure to the slot value in place and
returns the closure's answer; for a caught-up receiver (whose `changed()` is
pending), the next `changed()` poll resolves after the call if and only if
the closure returned true, and a closure that mutates but returns false
leaves `changed()` pending. -/
theorem watch_send_if_modified_notifies_iff_closure_true (T : Type)
    (w : WatchChan T) (r : WatchReceiverSt) (modify : T → T × Bool)
    (hcaught : r.seen = w.version) (hs : w.senderAlive = true) :
    ((w.sendIfModified modify).1.value = (modify w.value).1) ∧
    ((w.sendIfModified modify).2 = (modify w.value).2) ∧
    (((w.sendIfModified modify).1.changedPoll r).1 = ChangedOutcome.resolved
      ↔ (modify w.value).2 = true) ∧
    ((modify w.value).2 = false →
      ((w.sendIfModified modify).1.changedPoll r).1 = ChangedOutcome.pending) := by
  refine ⟨rfl, rfl, ?_, ?_⟩
  · by_cases hb : (modify w.value).2 = true
    · simp [WatchChan.sendIfModified, WatchChan.changedPoll, hb, hcaught]
    · have hb' : (modify w.value).2 = false := by simpa using hb
      simp [WatchChan.sendIfModified, WatchChan.changedPoll, hb', hcaught, hs]
  · intro hb
    simp [WatchChan.sendIfModified, WatchChan.changedPoll, hb, hcaught, hs]

/-- Witness for C8 at a concrete watch channel with a mutating closure that
returns false and one that returns true. -/
theorem watch_send_if_modified_notifies_iff_closure_true_witness :
    (((WatchChan.mk 10 4 1 true : WatchChan Nat).sendIfModified
        (fun x => (x + 1, false))).1.value = 11) ∧
    ((((WatchChan.mk 10 4 1 true : WatchChan Nat).sendIfModified
        (fun x => (x + 1, false))).1.changedPoll ⟨4⟩).1
      = ChangedOutcome.pending) ∧
    ((((WatchChan.mk 10 4 1 true : WatchChan Nat).sendIfModified
        (fun x => (x + 1, true))).1.changedPoll ⟨4⟩).1
      = ChangedOutcome.resolved) := by
  have hf := watch_send_if_modified_notifies_iff_closure_true Nat
    (WatchChan.mk 10 4 1 true) ⟨4⟩ (fun x => (x + 1, false)) rfl rfl
  have ht := watch_send_if_modified_notifies_iff_closure_true Nat
    (WatchChan.mk 10 4 1 true) ⟨4⟩ (fun x => (x + 1, true)) rfl rfl
  exact ⟨hf.1, hf.2.2.2 rfl, ht.2.2.1.mpr rfl⟩

/-- C9: the receiver returned by watch `channel(init)` treats the initial
value as already seen — its first `changed()` poll is pending, while
`borrow_watched` already returns `init`; after a subsequent notifying send the
poll resolves. -/
theorem watch_initial_value_already_seen (T : Type) (init : T) (v : T) :
    (((WatchChan.channel init).1.changedPoll (WatchChan.channel init).2).1
      = ChangedOutcome.pending) ∧
    ((WatchChan.channel init).1.borrowWatched = init) ∧
    (((((WatchChan.channel init).1.send v).1).changedPoll
        (WatchChan.channel init).2).1 = ChangedOutcome.resolved) := by
  refine ⟨?_, rfl, ?_⟩
  · simp [WatchChan.channel, WatchChan.changedPoll]
  · simp [WatchChan.channel, WatchChan.send, WatchChan.nativeSend,
      WatchChan.changedPoll, Except.mapError]

/-- C10: the adapter's `changed` error mapping collapses every underlying
failure cause to the single value `RecvError(())`: failures for different
reasons are indistinguishable to the caller. -/
theorem watch_changed_error_is_information_free
    (e1 e2 : WatchNativeRecvCause) :
    watchChangedAdapt (Except.error e1) = watchChangedAdapt (Except.error e2) ∧
    watchChangedAdapt (Except.error e1) = Except.error ⟨()⟩ := by
  cases e1 <;> cases e2 <;> exact ⟨rfl, rfl⟩

/-! ## Weak MPSC sender -/

/-- Modelled from the spec: `downgrade` (adapter lines 118-121) produces a
non-owning handle and changes no channel state; the weak handle is modelled as
access to the same shared channel state. -/
def MpscChan.downgrade (c : MpscChan T) : MpscChan T :=
  c

/-- Modelled from the spec: `WeakSender::upgrade` (adapter lines 144-147)
checks the strong count of the shared channel: while a strong sender remains
the channel is viable and upgrading mints a new strong sender; once no strong
sender remains it returns none. -/
def MpscChan.upgrade (c : MpscChan T) : Option (MpscChan T) :=
  if c.strong = 0 then none else some { c with strong := c.strong + 1 }

/-- C7: while the channel is viable (a strong sender remains and the receiver
is alive), `downgrade().upgrade()` yields some sender through which a send
delivers a message equal to one sent via the original sender (both enqueue the
same value at the tail); once no strong sender remains, `upgrade` returns
none. -/
theorem mpsc_weak_sender_upgrade_roundtrip (T : Type) (c : MpscChan T) (v : T)
    (h1 : 0 < c.strong) (h2 : c.receiverAlive = true) :
    (∃ c', (c.downgrade).upgrade = some c' ∧
      (c'.send v).2 = Except.ok () ∧
      (c'.send v).1.queue = c.queue ++ [v] ∧
      (c.send v).1.queue = c.queue ++ [v]) ∧
    (({ c with strong := 0 } : MpscChan T).downgrade).upgrade = none := by
  obtain ⟨cq, cs, cr⟩ := c
  subst h2
  constructor
  · refine ⟨MpscChan.mk cq (cs + 1) true, ?_, rfl, rfl, rfl⟩
    simp [MpscChan.downgrade, MpscChan.upgrade, Nat.pos_iff_ne_zero.mp h1]
  · simp [MpscChan.downgrade, MpscChan.upgrade]

/-- Witness for C7 at a concrete viable channel. -/
theorem mpsc_weak_sender_upgrade_roundtrip_witness :
    ((MpscChan.mk [1] 2 true : MpscChan Nat).downgrade).upgrade
        = some (MpscChan.mk [1] 3 true) ∧
    ((MpscChan.mk [1] 0 true : MpscChan Nat).downgrade).upgrade = none := by
  have h := mpsc_weak_sender_upgrade_roundtrip Nat (MpscChan.mk [1] 2 true) 9
    (by decide) rfl
  obtain ⟨⟨c', hc', _, hq, _⟩, hnone⟩ := h
  refine ⟨?_, hnone⟩
  have : c' = MpscChan.mk [1] 3 true := by
    have hup : (MpscChan.mk [1] 2 true : MpscChan Nat).downgrade.upgrade
        = some (MpscChan.mk [1] 3 true) := rfl
    rw [hup] at hc'
    exact (Option.some.injEq _ _).mp hc'.symm
  rw [hc', this]

/-! ## Timeout -/

/-- Modelled from the spec: an abstract wrapped operation, characterised by
the number of time steps it needs until completion and the value it then
produces (the future type raced by `tokio::time::timeout` is not under
`src/`). -/
structure PendingOp (R : Type) where
  time : Nat
  val : R
deriving Repr, DecidableEq

/-- The elapsed-deadline error of `timeout` (`tokio::time::error::Elapsed`). -/
structure Elapsed where
  u : Unit
deriving Repr, DecidableEq

/-- Result of driving a `timeout` race to its single outcome: the outcome and
the number of time steps the wrapped operation was actually driven. -/
structure TimeoutRun (R : Type) where
  outcome : Except Elapsed R
  driven : Nat
deriving Repr

/-- Modelled from the spec: `timeout(duration, op)` (adapter lines 58-61)
races the operation against the deadline.  If the operation completes within
the duration its result is the outcome and it was driven exactly its own
completion time; otherwise the outcome is the elapsed-error and the operation
was driven only up to the deadline, never afterwards. -/
def timeoutRun (d : Nat) (op : PendingOp R) : TimeoutRun R :=
  if op.time ≤ d then ⟨Except.ok op.val, op.time⟩ else ⟨Except.error ⟨()⟩, d⟩

/-- Modelled from the spec: `timeout_at(deadline, op)` (adapter lines 63-66)
is the instant-based variant: the race window is the time remaining from `now`
until the deadline instant. -/
def timeoutAtRun (now deadline : Nat) (op : PendingOp R) : TimeoutRun R :=
  timeoutRun (deadline - now) op

/-- C4: `timeout(D, op)` produces exactly one outcome — the operation's result
exactly when the operation completes within the window, and the elapsed-error
exactly when the deadline passes first, in which case the operation is driven
at most to the deadline and never to completion; `timeout_at` behaves as
`timeout` on the remaining window. -/
theorem timeout_single_outcome_and_abandons_op (R : Type) (d : Nat)
    (op : PendingOp R) (now deadline : Nat) :
    ((timeoutRun d op).outcome = Except.ok op.val ↔ op.time ≤ d) ∧
    (d < op.time → (timeoutRun d op).outcome = Except.error ⟨()⟩ ∧
      (timeoutRun d op).driven = d ∧ (timeoutRun d op).driven < op.time) ∧
    timeoutAtRun now deadline op = timeoutRun (deadline - now) op := by
  refine ⟨?_, ?_, rfl⟩
  · by_cases h : op.time ≤ d
    · simp [timeoutRun, h]
    · simp [timeoutRun, h]
  · intro h
    have h' : ¬ op.time ≤ d := by omega
    exact ⟨by simp [timeoutRun, h'], by simp [timeoutRun, h'], by
      simp [timeoutRun, h']; omega⟩

/-- Witness for C4 at a concrete duration and operation. -/
theorem timeout_single_outcome_and_abandons_op_witness :
    ((timeoutRun 3 (PendingOp.mk 2 42)).outcome = Except.ok 42) ∧
    ((timeoutRun 3 (PendingOp.mk 5 42)).outcome = Except.error ⟨()⟩) ∧
    ((timeoutRun 3 (PendingOp.mk 5 42)).driven = 3) := by
  have hfast := timeout_single_outcome_and_abandons_op Nat 3
    (PendingOp.mk 2 42) 0 3
  have hslow := timeout_single_outcome_and_abandons_op Nat 3
    (PendingOp.mk 5 42) 0 3
  have h := hslow.2.1 (by decide)
  exact ⟨hfast.1.mpr (by decide), h.1, h.2.1⟩

/-! ## Sleep and the timer -/

/-- Modelled from the spec: an outstanding sleep, identified by `sid`, with the
deadline computed from `sleep(duration)` or `sleep_until(instant)` (adapter
lines 48-56; the timer behind `tokio::time::sleep` is not under `src/`). -/
structure SleepEnt where
  sid : Nat
  deadline : Nat
deriving Repr, DecidableEq

/-- A resolved sleep: its identifier, its deadline and the clock value at
which it fired, recorded in resolution order. -/
structure FiredEnt where
  sid : Nat
  deadline : Nat
  fireTime : Nat
deriving Repr, DecidableEq

/-- Insert a sleep into a deadline-sorted list, keeping it sorted. -/
def insertByDeadline (s : SleepEnt) : List SleepEnt → List SleepEnt
  | [] => [s]
  | t :: ts =>
    if s.deadline ≤ t.deadline then s :: t :: ts else t :: insertByDeadline s ts

/-- Sort a batch of due sleeps by deadline (the timer fires the earliest
deadline first). -/
def sortByDeadline : List SleepEnt → List SleepEnt
  | [] => []
  | s :: ss => insertByDeadline s (sortByDeadline ss)

/-- The sleeps of a batch that are due at clock value `c`. -/
def dueFilter (c : Nat) (l : List SleepEnt) : List SleepEnt :=
  l.filter (fun s => decide (s.deadline ≤ c))

/-- The sleeps of a batch that are not yet due at clock value `c`. -/
def notDueFilter (c : Nat) (l : List SleepEnt) : List SleepEnt :=
  l.filter (fun s => !(decide (s.deadline ≤ c)))

/-- Modelled from the spec: the timer state — a monotone clock, the sleeps
still outstanding, and the already-resolved sleeps in resolution order. -/
structure Wheel where
  clock : Nat
  pending : List SleepEnt
  fired : List FiredEnt
deriving Repr, DecidableEq

/-- A timer started at clock 0 with the given outstanding sleeps. -/
def Wheel.start (sleeps : List SleepEnt) : Wheel :=
  { clock := 0, pending := sleeps, fired := [] }

/-- Modelled from the spec: one scheduling step.  The clock advances by an
arbitrary increment (scheduler jitter and coalescing appear as large
increments); every pending sleep whose deadline has passed resolves now,
earliest deadline first, and is removed from the pending set (it resolves at
most once). -/
def Wheel.advance (w : Wheel) (dt : Nat) : Wheel :=
  { clock := w.clock + dt
    pending := notDueFilter (w.clock + dt) w.pending
    fired := w.fired ++ (sortByDeadline (dueFilter (w.clock + dt) w.pending)).map
      (fun s => { sid := s.sid, deadline := s.deadline, fireTime := w.clock + dt }) }

/-- Run the timer through a whole sequence of clock increments. -/
def Wheel.run (w : Wheel) : List Nat → Wheel
  | [] => w
  | dt :: ds => (w.advance dt).run ds

theorem insertByDeadline_perm (s : SleepEnt) (l : List SleepEnt) :
    List.Perm (insertByDeadline s l) (s :: l) := by
  induction l with
  | nil => exact List.Perm.refl _
  | cons t ts ih =>
    rw [insertByDeadline]
    by_cases h : s.deadline ≤ t.deadline
    · rw [if_pos h]
    · rw [if_neg h]
      exact (ih.cons t).trans (List.Perm.swap s t ts)

theorem sortByDeadline_perm (l : List SleepEnt) : List.Perm (sortByDeadline l) l := by
  induction l with
  | nil => exact List.Perm.refl _
  | cons s ss ih =>
    exact (insertByDeadline_perm s (sortByDeadline ss)).trans (ih.cons s)

theorem insertByDeadline_sorted (s : SleepEnt) (l : List SleepEnt)
    (h : l.Pairwise (fun a b => a.deadline ≤ b.deadline)) :
    (insertByDeadline s l).Pairwise (fun a b => a.deadline ≤ b.deadline) := by
  induction l with
  | nil => simp [insertByDeadline]
  | cons t ts ih =>
    rw [List.pairwise_cons] at h
    rw [insertByDeadline]
    by_cases hle : s.deadline ≤ t.deadline
    · rw [if_pos hle, List.pairwise_cons]
      refine ⟨?_, List.pairwise_cons.mpr h⟩
      intro b hb
      rcases List.mem_cons.mp hb with rfl | hb
      · exact hle
      · exact le_trans hle (h.1 b hb)
    · rw [if_neg hle, List.pairwise_cons]
      refine ⟨?_, ih h.2⟩
      intro b hb
      rcases List.mem_cons.mp ((insertByDeadline_perm s ts).mem_iff.mp hb)
        with rfl | hb'
      · exact Nat.le_of_lt (Nat.lt_of_not_le hle)
      · exact h.1 b hb'

theorem sortByDeadline_sorted (l : List SleepEnt) :
    (sortByDeadline l).Pairwise (fun a b => a.deadline ≤ b.deadline) := by
  induction l with
  | nil => simp [sortByDeadline]
  | cons s ss ih => exact insertByDeadline_sorted s _ ih

theorem dueFilter_mem {c : Nat} {l : List SleepEnt} {s : SleepEnt}
    (h : s ∈ sortByDeadline (dueFilter c l)) : s ∈ l ∧ s.deadline ≤ c := by
  have h1 := (sortByDeadline_perm _).mem_iff.mp h
  have h2 := List.mem_filter.mp h1
  exact ⟨h2.1, by simpa using h2.2⟩

theorem notDueFilter_mem {c : Nat} {l : List SleepEnt} {p : SleepEnt}
    (h : p ∈ notDueFilter c l) : p ∈ l ∧ c < p.deadline := by
  have h1 := List.mem_filter.mp h
  refine ⟨h1.1, ?_⟩
  have h2 := h1.2
  simp only [Bool.not_eq_eq_eq_not, Bool.not_true, decide_eq_false_iff_not] at h2
  omega

/-- The invariant the timer maintains: fired sleeps fired no earlier than
their deadline, in non-decreasing deadline order, each at most once, and
every fired sleep's deadline is bounded by every pending deadline. -/
def WheelInv (w : Wheel) : Prop :=
  (∀ f ∈ w.fired, f.deadline ≤ f.fireTime) ∧
  w.fired.Pairwise (fun a b => a.deadline ≤ b.deadline) ∧
  (∀ f ∈ w.fired, ∀ p ∈ w.pending, f.deadline ≤ p.deadline) ∧
  (w.fired.map FiredEnt.sid ++ w.pending.map SleepEnt.sid).Nodup

theorem wheel_advance_sid_perm (w : Wheel) (dt : Nat) :
    List.Perm
      ((w.advance dt).fired.map FiredEnt.sid
        ++ (w.advance dt).pending.map SleepEnt.sid)
      (w.fired.map FiredEnt.sid ++ w.pending.map SleepEnt.sid) := by
  have e1 : (w.advance dt).fired.map FiredEnt.sid
      = w.fired.map FiredEnt.sid
        ++ (sortByDeadline (dueFilter (w.clock + dt) w.pending)).map
          SleepEnt.sid := by
    simp [Wheel.advance, List.map_append, List.map_map, Function.comp]
  have e2 : (w.advance dt).pending.map SleepEnt.sid
      = (notDueFilter (w.clock + dt) w.pending).map SleepEnt.sid := rfl
  rw [e1, e2, List.append_assoc]
  refine List.Perm.append_left _ ?_
  have p1 : List.Perm
      ((sortByDeadline (dueFilter (w.clock + dt) w.pending)).map SleepEnt.sid)
      ((dueFilter (w.clock + dt) w.pending).map SleepEnt.sid) :=
    (sortByDeadline_perm _).map _
  refine (p1.append (List.Perm.refl _)).trans ?_
  rw [← List.map_append]
  exact (List.filter_append_perm _ w.pending).map _

theorem wheelInv_advance (w : Wheel) (dt : Nat) (h : WheelInv w) :
    WheelInv (w.advance dt) := by
  obtain ⟨h1, h2, h3, h4⟩ := h
  refine ⟨?_, ?_, ?_, ?_⟩
  · intro f hf
    rcases List.mem_append.mp hf with hf | hf
    · exact h1 f hf
    · rcases List.mem_map.mp hf with ⟨s, hs, rfl⟩
      exact (dueFilter_mem hs).2
  · refine List.pairwise_append.mpr ⟨h2, ?_, ?_⟩
    · rw [List.pairwise_map]
      exact sortByDeadline_sorted _
    · intro a ha b hb
      rcases List.mem_map.mp hb with ⟨s, hs, rfl⟩
      exact h3 a ha s (dueFilter_mem hs).1
  · intro f hf p hp
    have hp' := notDueFilter_mem hp
    rcases List.mem_append.mp hf with hf | hf
    · exact h3 f hf p hp'.1
    · rcases List.mem_map.mp hf with ⟨s, hs, rfl⟩
      have hs' := (dueFilter_mem hs).2
      show s.deadline ≤ p.deadline
      omega
  · exact ((wheel_advance_sid_perm w dt).nodup_iff).mpr h4

theorem wheelInv_run (ds : List Nat) (w : Wheel) (h : WheelInv w) :
    WheelInv (w.run ds) := by
  induction ds generalizing w with
  | nil => exact h
  | cons dt ds ih => exact ih _ (wheelInv_advance w dt h)

theorem wheel_run_sid_perm (ds : List Nat) (w : Wheel) :
    List.Perm
      ((w.run ds).fired.map FiredEnt.sid ++ (w.run ds).pending.map SleepEnt.sid)
      (w.fired.map FiredEnt.sid ++ w.pending.map SleepEnt.sid) := by
  induction ds generalizing w with
  | nil => exact List.Perm.refl _
  | cons dt ds ih => exact (ih _).trans (wheel_advance_sid_perm w dt)

/-- C5: for any set of outstanding sleeps with distinct identifiers and any
schedule of clock advances, every resolved sleep fires no earlier than its
deadline; the resolution order is non-decreasing in deadline; no sleep
resolves twice; and every sleep is either resolved or still pending — none is
lost or duplicated. -/
theorem sleeps_never_early_and_fire_in_deadline_order (sleeps : List SleepEnt)
    (ds : List Nat) (h : (sleeps.map SleepEnt.sid).Nodup) :
    (∀ f ∈ ((Wheel.start sleeps).run ds).fired, f.deadline ≤ f.fireTime) ∧
    (((Wheel.start sleeps).run ds).fired.Pairwise
      (fun a b => a.deadline ≤ b.deadline)) ∧
    ((((Wheel.start sleeps).run ds).fired.map FiredEnt.sid).Nodup) ∧
    (List.Perm
      (((Wheel.start sleeps).run ds).fired.map FiredEnt.sid
        ++ ((Wheel.start sleeps).run ds).pending.map SleepEnt.sid)
      (sleeps.map SleepEnt.sid)) := by
  have hinv0 : WheelInv (Wheel.start sleeps) := by
    refine ⟨?_, ?_, ?_, ?_⟩
    · intro f hf; exact absurd hf (List.not_mem_nil f)
    · exact List.Pairwise.nil
    · intro f hf; exact absurd hf (List.not_mem_nil f)
    · simpa [Wheel.start] using h
  have hinv := wheelInv_run ds _ hinv0
  have hperm := wheel_run_sid_perm ds (Wheel.start sleeps)
  refine ⟨hinv.1, hinv.2.1, ?_, ?_⟩
  · exact (List.nodup_append.mp hinv.2.2.2).1
  · simpa [Wheel.start] using hperm

/-- Witness for C5 at a concrete sleep set and schedule. -/
theorem sleeps_never_early_and_fire_in_deadline_order_witness :
    (((Wheel.start [⟨0, 3⟩, ⟨1, 1⟩]).run [2, 5]).fired.Pairwise
      (fun a b => a.deadline ≤ b.deadline)) ∧
    ((((Wheel.start [⟨0, 3⟩, ⟨1, 1⟩]).run [2, 5]).fired.map
        FiredEnt.sid).Nodup) := by
  have h := sleeps_never_early_and_fire_in_deadline_order
    [⟨0, 3⟩, ⟨1, 1⟩] [2, 5] (by decide)
  exact ⟨h.2.1, h.2.2.1⟩

end OpenraftAsync
